import Mathlib

/-!
Verification of the quiltracker balance dashboard (src/pythontracker_18.py).

The program is a small Flask application with two endpoints:
* `update_balance` appends one CSV row per ingestion call
  (per-identifier log files `node_balance_<peer_id>.csv`);
* `index` reads every `.csv` file in the storage directory, concatenates
  the tables, sorts by `Date`, runs `compute_metrics`, and renders a
  latest-balances table plus two charts.

Shallow embedding conventions:
* A CSV data row is a `Record`; the `Date` column is modelled as rational
  minutes since an arbitrary epoch (so pandas's
  `.diff().dt.total_seconds() / 60` is plain subtraction of the values,
  and `.dt.floor('h')` is the floor of `date / 60`).
* pandas float columns arising from `diff`/division are modelled by
  `PFloat`: a finite rational, a signed infinity, or NaN, with IEEE-754
  division behaviour (`x / 0` is `±∞` for `x ≠ 0`, `0 / 0` and
  `NaN / NaN` are NaN).  `fillna(0)` maps NaN to `0` and leaves
  infinities alone; the comparison `NaN < 120` is `false`.
* DataFrames are lists of rows in pandas row order; `groupby` operations
  are modelled with the keys sorted (pandas `sort=True` default) and
  `last` taking the last in-order row of the group.
-/

namespace QuilTracker

/-- One data row of a balance log, after parsing: `Date` (rational minutes
since an epoch), `Peer ID`, `Balance` (already numeric), `Hostname`. -/
structure Record where
  date : ℚ
  peerId : String
  balance : ℚ
  hostname : String
deriving DecidableEq, Repr

/-- Value of a pandas float cell produced by `diff`/division: a finite
rational, a signed infinity (`inf true` is `+∞`), or NaN. -/
inductive PFloat where
  | val : ℚ → PFloat
  | inf : Bool → PFloat
  | nan : PFloat
deriving DecidableEq, Repr

/-- IEEE-754 division of two possibly-NaN values (`none` is NaN), as in
`df.groupby('Peer ID')['Balance'].diff() / df['Time_Diff_Minutes']`:
NaN propagates, `a / 0` is `±∞` for `a ≠ 0` and NaN for `a = 0`. -/
def floatDiv : Option ℚ → Option ℚ → PFloat
  | none, _ => .nan
  | some _, none => .nan
  | some a, some b =>
      if b = 0 then (if a = 0 then .nan else .inf (decide (0 < a)))
      else .val (a / b)

/-- `Series.fillna(0)`: NaN becomes `0`; finite values and infinities are
unchanged. -/
def PFloat.fillna0 : PFloat → PFloat
  | .nan => .val 0
  | x => x

/-- Multiplication by the positive constant 60
(`df['Quil_Per_Hour'] = df['Quil_Per_Minute'] * 60`). -/
def PFloat.mul60 : PFloat → PFloat
  | .val q => .val (q * 60)
  | .inf s => .inf s
  | .nan => .nan

/-- A row of the working DataFrame after `compute_metrics` has added the
`Time_Diff_Minutes` (`none` is NaN), `Quil_Per_Minute` and
`Quil_Per_Hour` columns. -/
structure MetricRow where
  date : ℚ
  peerId : String
  balance : ℚ
  hostname : String
  timeDiffMinutes : Option ℚ
  quilPerMinute : PFloat
  quilPerHour : PFloat
deriving DecidableEq, Repr

/-- The derived columns of one row, given the previous row of the same
`Peer ID` group (`none` for the first row of the group):
`Time_Diff_Minutes = Date.diff()` in minutes,
`Quil_Per_Minute = (Balance.diff() / Time_Diff_Minutes).fillna(0)`,
`Quil_Per_Hour = Quil_Per_Minute * 60` (the last column is added by the
source only after the gap filter, but its per-row value is the same). -/
def mkMetricRow (r : Record) (prev : Option Record) : MetricRow :=
  let td := prev.map (fun p0 => r.date - p0.date)
  let qpm := (floatDiv (prev.map (fun p0 => r.balance - p0.balance)) td).fillna0
  ⟨r.date, r.peerId, r.balance, r.hostname, td, qpm, qpm.mul60⟩

/-- Per-row `groupby('Peer ID').diff()` computation: walk the DataFrame in
row order keeping, per peer, the row last seen for that peer. -/
def annotateFrom (seen : String → Option Record) : List Record → List MetricRow
  | [] => []
  | r :: rest =>
      mkMetricRow r (seen r.peerId) ::
        annotateFrom (fun q => if q = r.peerId then some r else seen q) rest

/-- The gap filter `df.loc[df['Time_Diff_Minutes'] < 120]`.  In pandas the
comparison `NaN < 120` is `False`, so a row whose `Time_Diff_Minutes` is
NaN (the first row of its peer group) is dropped as well. -/
def keepRow (m : MetricRow) : Bool :=
  match m.timeDiffMinutes with
  | some d => decide (d < 120)
  | none => false

/-- The rate-bearing working DataFrame returned by `compute_metrics`
(first return value): derived columns added, then the gap filter. -/
def computeMetricsDf (rows : List Record) : List MetricRow :=
  (annotateFrom (fun _ => none) rows).filter keepRow

/-- `df['Hour'] = df['Date'].dt.floor('h')`: the hour bucket of a row,
as an integer number of hours since the epoch. -/
def hourOf (m : MetricRow) : ℤ := ⌊m.date / 60⌋

/-- Lexicographic comparison of character lists by code point, the order
in which pandas sorts string group keys. -/
def charsLe : List Char → List Char → Bool
  | [], _ => true
  | _ :: _, [] => false
  | a :: as, b :: bs => if a = b then charsLe as bs else decide (a < b)

/-- Lexicographic string comparison (structural model of `String.le`). -/
def strLe (a b : String) : Bool := charsLe a.data b.data

/-- The distinct `Peer ID` values of a DataFrame, in the sorted order in
which pandas `groupby('Peer ID', sort=True)` enumerates the groups. -/
def sortedDistinctPeers (l : List MetricRow) : List String :=
  List.insertionSort (fun a b => strLe a b = true) ((l.map (fun m => m.peerId)).dedup)

/-- The distinct hour buckets of one peer's rows, sorted ascending (the
minor key of `groupby(['Peer ID', 'Hour'])`). -/
def hoursOfPeer (l : List MetricRow) (p : String) : List ℤ :=
  List.insertionSort (fun a b : ℤ => a ≤ b)
    (((l.filter (fun m => m.peerId = p)).map hourOf).dedup)

/-- `groupby(['Peer ID', 'Hour'])['Balance'].last()` for one group: the
balance of the last row (in DataFrame order) of that peer and hour. -/
def lastBalanceIn (l : List MetricRow) (p : String) (h : ℤ) : Option ℚ :=
  ((l.filter (fun m => m.peerId = p && hourOf m = h)).map (fun m => m.balance)).getLast?

/-- The `(Peer ID, Hour, Balance)` rows of
`df.groupby(['Peer ID', 'Hour'])['Balance'].last().reset_index()`,
sorted by peer (major) then hour (minor) as pandas does. -/
def hourlyLast (l : List MetricRow) : List (String × ℤ × ℚ) :=
  (sortedDistinctPeers l).flatMap (fun p =>
    (hoursOfPeer l p).filterMap (fun h =>
      (lastBalanceIn l p h).map (fun b => (p, h, b))))

/-- A row of the `hourly_growth` DataFrame; its `Quil_Per_Hour` column is
a copy of `growth` (source line 42), so it is not repeated here. -/
structure HourlyRow where
  peerId : String
  hour : ℤ
  balance : ℚ
  growth : ℚ
deriving DecidableEq, Repr

/-- `hourly_growth['Growth'] = hourly_growth.groupby('Peer ID')['Balance']
.diff().fillna(0)`: walk the rows in order keeping, per peer, the balance
last seen; the first row of a peer gets growth 0 (`fillna(0)` of NaN). -/
def growthFrom (seen : String → Option ℚ) : List (String × ℤ × ℚ) → List HourlyRow
  | [] => []
  | (p, h, b) :: rest =>
      ⟨p, h, b, match seen p with | none => 0 | some b0 => b - b0⟩ ::
        growthFrom (fun q => if q = p then some b else seen q) rest

/-- The `hourly_growth` DataFrame returned by `compute_metrics` (second
return value), computed from the gap-filtered working DataFrame. -/
def hourlyGrowth (l : List MetricRow) : List HourlyRow :=
  growthFrom (fun _ => none) (hourlyLast l)

/-- `combined_df.filter/groupby('Peer ID')` group of one peer, last row:
`groupby('Peer ID').last()` for that peer (all columns are non-null in
the filtered DataFrame, so `last` is the last in-order row). -/
def lastRowOfPeer (l : List MetricRow) (p : String) : Option MetricRow :=
  (l.filter (fun m => m.peerId = p)).getLast?

/-- `latest_balances = combined_df.groupby('Peer ID').last().reset_index()`:
one row per distinct peer, peers in sorted order.  The source's line 105
re-assigns the `Hostname` column from a second identical `groupby`, which
leaves the values unchanged. -/
def latestBalances (l : List MetricRow) : List MetricRow :=
  (sortedDistinctPeers l).filterMap (lastRowOfPeer l)

/-- A cell of the rendered table (`to_dict(orient='records')` values). -/
inductive Cell where
  | str : String → Cell
  | num : ℚ → Cell
  | flo : PFloat → Cell
  | idx : ℕ → Cell
deriving DecidableEq, Repr

/-- One record of
`latest_balances[['Hostname','Balance','Quil_Per_Minute','Quil_Per_Hour']]
.reset_index().to_dict(orient='records')`.  The first `reset_index` (line
104) turned `Peer ID` into an ordinary column, which the column selection
then drops; the second `reset_index` (line 107) therefore materialises
the default integer position as a column named `index`. -/
def tableRow (i : ℕ) (m : MetricRow) : List (String × Cell) :=
  [("index", Cell.idx i), ("Hostname", Cell.str m.hostname),
   ("Balance", Cell.num m.balance),
   ("Quil_Per_Minute", Cell.flo m.quilPerMinute),
   ("Quil_Per_Hour", Cell.flo m.quilPerHour)]

/-- `table_data`: the list of record dictionaries handed to the template. -/
def tableData (l : List MetricRow) : List (List (String × Cell)) :=
  (latestBalances l).enum.map (fun pm => tableRow pm.1 pm.2)

/-! ### Endpoint model -/

/-- An HTTP response: body, status code, headers (an association list;
`setHeader` gives assignment the usual replace-or-append semantics). -/
structure Response where
  body : String
  code : ℕ
  headers : List (String × String)
deriving DecidableEq, Repr

/-- `response.headers[k] = v`: replace the value if the key is present,
append the pair otherwise. -/
def setHeader (hs : List (String × String)) (k v : String) : List (String × String) :=
  if hs.any (fun e => e.1 = k) then hs.map (fun e => if e.1 = k then (k, v) else e)
  else hs ++ [(k, v)]

/-- Look a header up in a response. -/
def headerValue (r : Response) (k : String) : Option String :=
  (r.headers.find? (fun e => e.1 = k)).map (fun e => e.2)

/-- The `add_header` after-request hook (source lines 13-18): sets the
three cache-disabling headers on a response. -/
def add_header (r : Response) : Response :=
  ⟨r.body, r.code,
    setHeader
      (setHeader
        (setHeader r.headers "Cache-Control"
          "no-store, no-cache, must-revalidate, post-check=0, pre-check=0, max-age=0")
        "Pragma" "no-cache")
      "Expires" "0"⟩

/-- The JSON object of an ingestion request body, with each of the four
recognised fields optionally present (values kept as raw strings, as the
endpoint performs no coercion before writing them). -/
structure UpdateRequest where
  peer_id : Option String
  balance : Option String
  timestamp : Option String
  hostname : Option String
deriving DecidableEq, Repr

/-- What `request.get_json()` yields: `invalid` models a body on which
`get_json` raises; `json none` models a missing/falsy body (the `not
data` test); `json (some d)` a JSON object. -/
inductive RawBody where
  | invalid : RawBody
  | json : Option UpdateRequest → RawBody
deriving DecidableEq, Repr

/-- The storage directory as a map from file path to file lines. -/
abbrev Fs := List (String × List String)

/-- `CSV_DIRECTORY` (source line 10). -/
def CSV_DIRECTORY : String := "/root/quiltracker"

/-- `os.path.exists` / reading a file: look a path up in the store. -/
def fsRead (fs : Fs) (path : String) : Option (List String) :=
  (fs.find? (fun e => e.1 = path)).map (fun e => e.2)

/-- Write a file (create or overwrite). -/
def fsSet (fs : Fs) (path : String) (ls : List String) : Fs :=
  if fs.any (fun e => e.1 = path) then
    fs.map (fun e => if e.1 = path then (path, ls) else e)
  else fs ++ [(path, ls)]

/-- `open(log_file, 'a')` followed by one `write`: append a line,
creating the file if absent. -/
def fsAppendLine (fs : Fs) (path line : String) : Fs :=
  match fsRead fs path with
  | some ls => fsSet fs path (ls ++ [line])
  | none => fsSet fs path [line]

/-- `os.path.join(CSV_DIRECTORY, f'node_balance_{peer_id}.csv')`. -/
def logFileOf (pid : String) : String :=
  CSV_DIRECTORY ++ "/node_balance_" ++ pid ++ ".csv"

/-- The header row written to a freshly created log (source line 65). -/
def headerLine : String := "Date,Peer ID,Balance,Hostname"

/-- The body of `update_balance`'s `try` block.  `.error` marks a raised
exception (here: `request.get_json()` raising on an unparseable body);
the validation test `not data or 'peer_id' not in data or ...` yields the
400 response before any file is touched. -/
def updateBalanceInner (raw : RawBody) (fs : Fs) : Except String (Response × Fs) :=
  match raw with
  | .invalid => .error "get_json raised"
  | .json none => .ok (⟨"Invalid data", 400, []⟩, fs)
  | .json (some d) =>
      match d.peer_id, d.balance, d.timestamp, d.hostname with
      | some pid, some bal, some ts, some hn =>
          let path := logFileOf pid
          let fs1 := if fsRead fs path = none then fsSet fs path [headerLine] else fs
          let fs2 := fsAppendLine fs1 path (ts ++ "," ++ pid ++ "," ++ bal ++ "," ++ hn)
          .ok (⟨"Balance updated", 200, []⟩, fs2)
      | _, _, _, _ => .ok (⟨"Invalid data", 400, []⟩, fs)

/-- The `update_balance` endpoint: the `try`/`except Exception` wrapper
turns any raised exception into the generic 500 response (source lines
72-74), with the filesystem left as it was at the point of failure. -/
def update_balance (raw : RawBody) (fs : Fs) : Response × Fs :=
  match updateBalanceInner raw fs with
  | .ok r => r
  | .error _ => (⟨"Internal Server Error", 500, []⟩, fs)

/-- The content of one file as seen by the report path: `parsed rows` if
`pd.read_csv` plus the balance normalisation succeed, `malformed` for a
file on which they raise (e.g. an empty file raises
`pandas.errors.EmptyDataError`; a file lacking the expected columns
raises `KeyError` at the normalisation). -/
inductive CsvFile where
  | parsed : List Record → CsvFile
  | malformed : CsvFile
deriving DecidableEq, Repr

/-- Reading one file inside the report loop (source lines 87-90). -/
def readCsv : CsvFile → Except String (List Record)
  | .parsed rows => .ok rows
  | .malformed => .error "read_csv raised"

/-- The report loop over the directory listing: read each file in order,
propagating the first raised exception (`index` has no `try`). -/
def readAll : List CsvFile → Except String (List (List Record))
  | [] => .ok []
  | f :: fs =>
      match readCsv f with
      | .error e => .error e
      | .ok t =>
          match readAll fs with
          | .error e => .error e
          | .ok ts => .ok (t :: ts)

/-- `str.endswith(suffix)`: character-level suffix test (structural model
of `String.endsWith`). -/
def endsWith (s suffix : String) : Bool := suffix.data.isSuffixOf s.data

/-- `[f for f in os.listdir(CSV_DIRECTORY) if f.endswith('.csv')]`. -/
def csvFilesOf (entries : List (String × CsvFile)) : List CsvFile :=
  (entries.filter (fun e => endsWith e.1 ".csv")).map (fun e => e.2)

/-- The data handed to the template by the report endpoint: the
`table_data` records and the two DataFrames handed to the charting
calls (`px.line` and `px.bar` both receive the gap-filtered
`combined_df`); the empty state uses empty markup strings, modelled as
empty row lists. -/
structure Dashboard where
  tableRows : List (List (String × Cell))
  balanceChart : List MetricRow
  quilMinuteChart : List MetricRow
deriving DecidableEq, Repr

/-- The `index` endpoint (source lines 77-129).  `dir = none` models a
missing/unreadable storage directory, on which `os.listdir` raises
`FileNotFoundError`; since the handler has no `try`/`except`, that and
any per-file read error escape the handler as `.error`.  Otherwise the
`.csv` files are read in listing order, concatenated, sorted by `Date`
(stable), and run through `compute_metrics`. -/
def index (dir : Option (List (String × CsvFile))) : Except String Dashboard :=
  match dir with
  | none => .error "FileNotFoundError"
  | some entries =>
      match readAll (csvFilesOf entries) with
      | .error e => .error e
      | .ok tables =>
          if tables.isEmpty then .ok ⟨[], [], []⟩
          else
            let combined :=
              List.insertionSort (fun a b : Record => a.date ≤ b.date) tables.flatten
            let mdf := computeMetricsDf combined
            .ok ⟨tableData mdf, mdf, mdf⟩

instance {ε α : Type} [DecidableEq ε] [DecidableEq α] : DecidableEq (Except ε α) :=
  fun x y =>
    match x, y with
    | .ok a, .ok b =>
        if h : a = b then isTrue (by rw [h]) else isFalse (by intro hc; cases hc; exact h rfl)
    | .error e, .error f =>
        if h : e = f then isTrue (by rw [h]) else isFalse (by intro hc; cases hc; exact h rfl)
    | .ok _, .error _ => isFalse (by intro hc; cases hc)
    | .error _, .ok _ => isFalse (by intro hc; cases hc)

/-- A request to the application: either endpoint with its inputs. -/
inductive AppRequest where
  | updateReq : RawBody → AppRequest
  | reportReq : Option (List (String × CsvFile)) → AppRequest
deriving DecidableEq, Repr

/-- The response a handler (or, for an exception escaping `index`, the
framework's catch-all error handler) produces, before after-request
processing. -/
def dispatch (req : AppRequest) (fs : Fs) : Response :=
  match req with
  | .updateReq raw => (update_balance raw fs).1
  | .reportReq dir =>
      match index dir with
      | .ok _ => ⟨"index.html", 200, []⟩
      | .error _ => ⟨"Internal Server Error", 500, []⟩

/-- The full response of the application.  `@app.after_request` registers
`add_header` application-wide, so Flask applies it to every response it
sends — both endpoints and framework-generated error responses alike. -/
def appResponse (req : AppRequest) (fs : Fs) : Response :=
  add_header (dispatch req fs)

/-! ### Spec-side characterisations

These definitions follow the words of the specification (not the source)
and are used to compare the embedded code against the spec's claims. -/

/-- Spec-side: given the date of the previous same-identifier record (if
any) and the remaining dates of one identifier's records in table order,
the dates of the records that survive the gap filter.  A record survives
exactly when it has a previous record and the elapsed minutes to it are
`< 120`; in particular the first record of an identifier never survives. -/
def specRetained : Option ℚ → List ℚ → List ℚ
  | _, [] => []
  | none, t :: ts => specRetained (some t) ts
  | some t0, t :: ts =>
      if t - t0 < 120 then t :: specRetained (some t) ts
      else specRetained (some t) ts

/-! ### Helper lemmas -/

/-- Restricted to one peer, the gap-filtered working table's dates are
exactly the spec-side `specRetained` of that peer's date subsequence,
relative to the date recorded for that peer in the running state. -/
theorem annotate_filter_peer_dates (p : String) :
    ∀ (rows : List Record) (seen : String → Option Record),
      (((annotateFrom seen rows).filter
          (fun m => decide (m.peerId = p) && keepRow m)).map (fun m => m.date))
        = specRetained ((seen p).map (fun r => r.date))
            ((rows.filter (fun r => r.peerId = p)).map (fun r => r.date)) := by
  intro rows
  induction rows with
  | nil => intro seen; simp [annotateFrom, specRetained]
  | cons r rest ih =>
      intro seen
      by_cases hp : r.peerId = p
      · subst hp
        rcases hs : seen r.peerId with _ | r0
        · have hc : (decide ((mkMetricRow r (seen r.peerId)).peerId = r.peerId)
              && keepRow (mkMetricRow r (seen r.peerId))) = false := by
            simp [mkMetricRow, keepRow, hs]
          simp only [annotateFrom, List.filter_cons, hc, Bool.false_eq_true, if_false, ih]
          simp [mkMetricRow, hs, specRetained]
        · by_cases hlt : r.date - r0.date < 120
          · have hc : (decide ((mkMetricRow r (seen r.peerId)).peerId = r.peerId)
                && keepRow (mkMetricRow r (seen r.peerId))) = true := by
              simp [mkMetricRow, keepRow, hs, hlt]
            simp only [annotateFrom, List.filter_cons, hc, if_true, List.map_cons, ih]
            simp [mkMetricRow, hs, specRetained, hlt]
          · have hc : (decide ((mkMetricRow r (seen r.peerId)).peerId = r.peerId)
                && keepRow (mkMetricRow r (seen r.peerId))) = false := by
              simp [mkMetricRow, keepRow, hs, hlt]
            simp only [annotateFrom, List.filter_cons, hc, Bool.false_eq_true, if_false, ih]
            simp [mkMetricRow, hs, specRetained, hlt]
      · have hp2 : ¬ (p = r.peerId) := fun h => hp h.symm
        have hc : (decide ((mkMetricRow r (seen r.peerId)).peerId = p)
            && keepRow (mkMetricRow r (seen r.peerId))) = false := by
          simp [mkMetricRow, hp]
        simp only [annotateFrom, List.filter_cons, hc, Bool.false_eq_true, if_false, ih]
        simp [hp, hp2]

/-! ### Claims -/

/-- C2 (amended): in the rate-bearing working table, for every identifier
the retained records are exactly those with a previous same-identifier
record less than 120 elapsed minutes earlier.  In particular the first
record of each identifier is always excluded (its elapsed-minutes cell is
NaN, and the filter `Time_Diff_Minutes < 120` evaluates `NaN < 120` to
false), contrary to the claim that it is retained with rate 0. -/
theorem gap_filter_retained_dates (rows : List Record) (p : String) :
    ((computeMetricsDf rows).filter (fun m => m.peerId = p)).map (fun m => m.date)
      = specRetained none ((rows.filter (fun r => r.peerId = p)).map (fun r => r.date)) := by
  have h := annotate_filter_peer_dates p rows (fun _ => none)
  simp only [computeMetricsDf, List.filter_filter]
  simpa using h

/-- C2 counterexample: for a single identifier with records at minutes 0
and 10, the claim says the first record (date 0) is retained with rate 0;
in fact the working table contains only the second record. -/
theorem gap_filter_drops_first_record :
    (computeMetricsDf [⟨0, "p", 10, "h"⟩, ⟨10, "p", 15, "h"⟩]).map (fun m => m.date)
      = [10] := by
  with_unfolding_all decide

/-- C6 (confirmed): a single identifier with a record at `t0` (balance 10)
and a record at `t0 + 10` minutes (balance 15) gets, on the second record,
per-minute rate `(15 - 10) / 10 = 0.5` and hourly-equivalent rate 30.
(The first record itself is dropped by the gap filter.) -/
theorem two_record_rate (t0 : ℚ) :
    computeMetricsDf [⟨t0, "p", 10, "h"⟩, ⟨t0 + 10, "p", 15, "h"⟩]
      = [⟨t0 + 10, "p", 15, "h", some 10, .val (1/2), .val 30⟩] := by
  simp only [computeMetricsDf, annotateFrom, mkMetricRow, List.filter_cons, keepRow]
  norm_num [floatDiv, PFloat.fillna0, PFloat.mul60]

/-- C9 (amended): a record with no previous same-identifier record gets
per-minute rate 0 (NaN filled with 0).  A record whose elapsed time to
the previous record is zero gets rate 0 only when its balance delta is
also zero; a nonzero delta over zero elapsed time yields a signed
infinity, not 0.  No case is an error: the computation is total. -/
theorem rate_on_undefined_cases (r prev : Record) (hd : prev.date = r.date) :
    (mkMetricRow r none).quilPerMinute = .val 0 ∧
    (mkMetricRow r (some prev)).quilPerMinute =
      (if r.balance = prev.balance then PFloat.val 0
       else PFloat.inf (decide (prev.balance < r.balance))) := by
  constructor
  · simp [mkMetricRow, floatDiv, PFloat.fillna0]
  · have hz : r.date - prev.date = 0 := by rw [hd, sub_self]
    by_cases hb : r.balance = prev.balance
    · have hbz : r.balance - prev.balance = 0 := by rw [hb, sub_self]
      simp [mkMetricRow, floatDiv, hz, hbz, PFloat.fillna0, hb]
    · have hbz : ¬ (r.balance - prev.balance = 0) := fun h => hb (sub_eq_zero.mp h)
      have hpos : decide (0 < r.balance - prev.balance) = decide (prev.balance < r.balance) :=
        decide_eq_decide.mpr sub_pos
      simp [mkMetricRow, floatDiv, hz, hbz, PFloat.fillna0, hb, hpos]

/-- Witness for the rate theorem at a concrete input: two records of peer
`p` at the same minute 0, balances 10 then 15. -/
theorem rate_on_undefined_cases_witness :
    (mkMetricRow ⟨0, "p", 15, "h"⟩ none).quilPerMinute = .val 0 ∧
    (mkMetricRow ⟨0, "p", 15, "h"⟩ (some ⟨0, "p", 10, "h"⟩)).quilPerMinute =
      (if (15:ℚ) = 10 then PFloat.val 0 else PFloat.inf (decide ((10:ℚ) < 15))) :=
  rate_on_undefined_cases ⟨0, "p", 15, "h"⟩ ⟨0, "p", 10, "h"⟩ rfl

/-- C9 counterexample: with a previous same-identifier record at the same
timestamp and a larger balance, the retained record's per-minute rate is
`+∞`, not 0 as the claim states for all division-by-zero cases. -/
theorem rate_divzero_not_zero :
    (computeMetricsDf [⟨0, "p", 10, "h"⟩, ⟨0, "p", 15, "h"⟩]).map (fun m => m.quilPerMinute)
      = [PFloat.inf true] := by
  with_unfolding_all decide

/-- Spec-side: the sequence of hour-over-hour growths for one identifier:
given the previous bucket's last balance (if any) and the successive
buckets' last balances, the first bucket gets 0 and every later bucket
gets its balance minus the previous bucket's balance. -/
def specDiffsFrom : Option ℚ → List ℚ → List ℚ
  | _, [] => []
  | none, b :: bs => 0 :: specDiffsFrom (some b) bs
  | some b0, b :: bs => (b - b0) :: specDiffsFrom (some b) bs

/-- Restricted to one peer, the growth column produced by the stateful
per-peer diff is the spec-side sequential difference of the balance
column. -/
theorem growthFrom_filter_growths (p : String) :
    ∀ (l : List (String × ℤ × ℚ)) (seen : String → Option ℚ),
      ((growthFrom seen l).filter (fun r => r.peerId = p)).map (fun r => r.growth)
        = specDiffsFrom (seen p) ((l.filter (fun e => e.1 = p)).map (fun e => e.2.2)) := by
  intro l
  induction l with
  | nil => intro seen; simp [growthFrom, specDiffsFrom]
  | cons e rest ih =>
      obtain ⟨q, hh, b⟩ := e
      intro seen
      by_cases hq : q = p
      · subst hq
        rcases hs : seen q with _ | b0
        · simp [growthFrom, List.filter_cons, hs, ih, specDiffsFrom]
        · simp [growthFrom, List.filter_cons, hs, ih, specDiffsFrom]
      · have hq2 : ¬ (p = q) := fun hc => hq hc.symm
        simp [growthFrom, List.filter_cons, hq, hq2, ih]

/-- Restricted to one peer, the balance column is unchanged by the
stateful per-peer diff. -/
theorem growthFrom_filter_balances (p : String) :
    ∀ (l : List (String × ℤ × ℚ)) (seen : String → Option ℚ),
      ((growthFrom seen l).filter (fun r => r.peerId = p)).map (fun r => r.balance)
        = (l.filter (fun e => e.1 = p)).map (fun e => e.2.2) := by
  intro l
  induction l with
  | nil => intro seen; simp [growthFrom]
  | cons e rest ih =>
      obtain ⟨q, hh, b⟩ := e
      intro seen
      by_cases hq : q = p
      · subst hq
        simp [growthFrom, List.filter_cons, ih]
      · have hq2 : ¬ (p = q) := fun hc => hq hc.symm
        simp [growthFrom, List.filter_cons, hq, hq2, ih]

/-- Every row produced by the stateful per-peer diff carries over the
`(peer, hour, balance)` triple of an input row. -/
theorem mem_growthFrom :
    ∀ (l : List (String × ℤ × ℚ)) (seen : String → Option ℚ) (r : HourlyRow),
      r ∈ growthFrom seen l → (r.peerId, r.hour, r.balance) ∈ l := by
  intro l
  induction l with
  | nil => intro seen r h; simp [growthFrom] at h
  | cons e rest ih =>
      obtain ⟨q, hh, b⟩ := e
      intro seen r h
      simp only [growthFrom, List.mem_cons] at h
      rcases h with h | h
      · subst h; simp
      · simp [List.mem_cons]
        exact Or.inr (ih _ r h)

/-- A `(peer, hour, balance)` triple of the hourly rollup records the
last balance observed for that peer in that hour bucket. -/
theorem mem_hourlyLast (l : List MetricRow) (p : String) (hh : ℤ) (b : ℚ) :
    (p, hh, b) ∈ hourlyLast l → lastBalanceIn l p hh = some b := by
  intro hmem
  simp only [hourlyLast, List.mem_flatMap, List.mem_filterMap] at hmem
  obtain ⟨p', _, h', _, hmap⟩ := hmem
  rcases hob : lastBalanceIn l p' h' with _ | b'
  · rw [hob] at hmap; cases hmap
  · rw [hob] at hmap
    simp only [Option.map_some', Option.some.injEq, Prod.mk.injEq] at hmap
    obtain ⟨hp, hhh, hb⟩ := hmap
    rw [← hp, ← hhh, ← hb]
    exact hob

/-- C7 (confirmed): in the hourly rollup, each row's balance is the last
balance observed for that identifier in that hour bucket, and, per
identifier, the growth column is the sequential difference of the bucket
balances: the identifier's first present bucket gets growth 0 regardless
of its absolute balance, and every later bucket gets its balance minus
the previous present bucket's balance. -/
theorem hourly_growth_bucket_diffs (l : List MetricRow) (p : String) :
    ((hourlyGrowth l).filter (fun r => r.peerId = p)).map (fun r => r.growth)
      = specDiffsFrom none
          (((hourlyGrowth l).filter (fun r => r.peerId = p)).map (fun r => r.balance)) ∧
    ∀ r ∈ hourlyGrowth l, lastBalanceIn l r.peerId r.hour = some r.balance := by
  constructor
  · have h1 := growthFrom_filter_growths p (hourlyLast l) (fun _ => none)
    have h2 := growthFrom_filter_balances p (hourlyLast l) (fun _ => none)
    rw [hourlyGrowth, h1, h2]
  · intro r hr
    exact mem_hourlyLast l r.peerId r.hour r.balance (mem_growthFrom _ _ r hr)

/-- Witness for the hourly-growth theorem: peer `p` with retained records
at minutes 50 (balance 3, hour bucket 0) and 70 (balance 6, hour bucket
1); the bucket-1 row records last balance 6. -/
theorem hourly_growth_bucket_diffs_witness :
    lastBalanceIn (computeMetricsDf
        [⟨0, "p", 1, "h"⟩, ⟨50, "p", 3, "h"⟩, ⟨70, "p", 6, "h"⟩]) "p" 1 = some 6 :=
  (hourly_growth_bucket_diffs
      (computeMetricsDf [⟨0, "p", 1, "h"⟩, ⟨50, "p", 3, "h"⟩, ⟨70, "p", 6, "h"⟩]) "p").2
    ⟨"p", 1, 6, 3⟩ (by with_unfolding_all decide)

/-- `filterMap` by a function that hits every element keeps the length. -/
theorem filterMap_length_of_isSome {α β : Type} (f : α → Option β) :
    ∀ xs : List α, (∀ x ∈ xs, (f x).isSome) → (xs.filterMap f).length = xs.length := by
  intro xs
  induction xs with
  | nil => intro _; rfl
  | cons x rest ih =>
      intro h
      rcases hfx : f x with _ | y
      · exact absurd (h x (List.mem_cons_self x rest)) (by simp [hfx])
      · simp [List.filterMap_cons, hfx,
          ih (fun z hz => h z (List.mem_cons_of_mem x hz))]

/-- A peer occurs in the sorted distinct-peer list iff it occurs in the
DataFrame's peer column. -/
theorem mem_sortedDistinctPeers (l : List MetricRow) (p : String) :
    p ∈ sortedDistinctPeers l ↔ p ∈ l.map (fun m => m.peerId) := by
  rw [sortedDistinctPeers, (List.perm_insertionSort _ _).mem_iff, List.mem_dedup]

/-- A peer occurs in the peer column iff its filtered group is nonempty. -/
theorem peer_mem_iff_filter_ne_nil (l : List MetricRow) (p : String) :
    p ∈ l.map (fun m => m.peerId) ↔ l.filter (fun m => m.peerId = p) ≠ [] := by
  constructor
  · intro hp hnil
    obtain ⟨m, hm, hpeq⟩ := List.mem_map.mp hp
    have hmf : m ∈ l.filter (fun m => m.peerId = p) :=
      List.mem_filter.mpr ⟨hm, by simp [hpeq]⟩
    rw [hnil] at hmf
    cases hmf
  · intro hne
    rcases hfe : l.filter (fun m => m.peerId = p) with _ | ⟨m, rest⟩
    · exact absurd hfe hne
    · have hm : m ∈ l.filter (fun m => m.peerId = p) := by
        rw [hfe]; exact List.mem_cons_self _ _
      have hsplit := List.mem_filter.mp hm
      exact List.mem_map.mpr ⟨m, hsplit.1, by simpa using hsplit.2⟩

/-- Every peer listed in `sortedDistinctPeers` has a last row. -/
theorem lastRowOfPeer_isSome (l : List MetricRow) :
    ∀ p ∈ sortedDistinctPeers l, (lastRowOfPeer l p).isSome := by
  intro p hp
  rw [mem_sortedDistinctPeers, peer_mem_iff_filter_ne_nil] at hp
  rw [lastRowOfPeer, List.getLast?_isSome]
  exact hp

/-- The latest-state table has one row per sorted distinct peer. -/
theorem latestBalances_length (l : List MetricRow) :
    (latestBalances l).length = (sortedDistinctPeers l).length :=
  filterMap_length_of_isSome _ _ (lastRowOfPeer_isSome l)

/-- A peer has rows in the gap-filtered working table iff the spec-side
retained-date list of its raw records is nonempty. -/
theorem peer_in_metrics_iff (rows : List Record) (p : String) :
    p ∈ (computeMetricsDf rows).map (fun m => m.peerId)
      ↔ specRetained none
          ((rows.filter (fun r => r.peerId = p)).map (fun r => r.date)) ≠ [] := by
  rw [peer_mem_iff_filter_ne_nil]
  have h := annotate_filter_peer_dates p rows (fun _ => none)
  simp only [Option.map_none'] at h
  constructor
  · intro hne
    rw [← h]
    simp only [computeMetricsDf, List.filter_filter] at hne
    intro hmap
    exact hne (List.map_eq_nil_iff.mp hmap)
  · intro hne hnil
    apply hne
    rw [← h]
    simp only [computeMetricsDf, List.filter_filter] at hnil
    rw [hnil]
    rfl

/-- C1 (amended): the latest-state table handed to the template has
exactly one row per distinct identifier that still has a record after the
gap filter — i.e. per identifier with at least one record whose
predecessor (same identifier, in table order) is less than 120 minutes
earlier.  An identifier all of whose records are dropped (for example one
whose log has a single record) gets no row, so the row count can be
smaller than the number of distinct identifiers appearing in the logs. -/
theorem latest_table_row_count (rows : List Record) :
    (tableData (computeMetricsDf rows)).length
      = (((rows.map (fun r => r.peerId)).dedup).filter
          (fun p => !(specRetained none
              ((rows.filter (fun r => r.peerId = p)).map (fun r => r.date))).isEmpty)).length := by
  rw [tableData, List.length_map, List.enum_length, latestBalances_length,
    sortedDistinctPeers, (List.perm_insertionSort _ _).length_eq]
  have hperm : List.Perm ((computeMetricsDf rows).map (fun m => m.peerId)).dedup
      (((rows.map (fun r => r.peerId)).dedup).filter
          (fun p => !(specRetained none
              ((rows.filter (fun r => r.peerId = p)).map (fun r => r.date))).isEmpty)) := by
    rw [List.perm_ext_iff_of_nodup (List.nodup_dedup _)
      (List.Nodup.filter _ (List.nodup_dedup _))]
    intro p
    rw [List.mem_dedup, peer_in_metrics_iff, List.mem_filter, List.mem_dedup]
    constructor
    · intro hne
      refine ⟨?_, by simp [List.isEmpty_iff, hne]⟩
      by_contra hnotin
      have : rows.filter (fun r => r.peerId = p) = [] := by
        rw [List.filter_eq_nil_iff]
        intro r hr hp
        exact hnotin (List.mem_map.mpr ⟨r, hr, by simpa using hp⟩)
      rw [this] at hne
      simp [specRetained] at hne
    · rintro ⟨_, hpred⟩
      simpa [List.isEmpty_iff] using hpred
  exact hperm.length_eq

/-- C1 counterexample: identifier `a` has one record and identifier `b`
two records 10 minutes apart; 2 distinct identifiers appear across the
logs, but the dashboard's latest-state table has a single row. -/
theorem latest_table_misses_single_record_peer :
    (index (some [("node_balance_a.csv", .parsed [⟨0, "a", 5, "ha"⟩]),
                  ("node_balance_b.csv",
                    .parsed [⟨0, "b", 1, "hb"⟩, ⟨10, "b", 2, "hb"⟩])])).map
        (fun d => d.tableRows.length) = .ok 1 ∧
    (([⟨0, "a", 5, "ha"⟩, ⟨0, "b", 1, "hb"⟩, ⟨10, "b", 2, "hb"⟩] : List Record).map
        (fun r => r.peerId)).dedup.length = 2 := by
  with_unfolding_all decide

/-- `filterMap` by a function that hits every element acts elementwise on
positions. -/
theorem filterMap_getElem?_of_isSome {α β : Type} (f : α → Option β) :
    ∀ (xs : List α) (i : ℕ), (∀ x ∈ xs, (f x).isSome) →
      (xs.filterMap f)[i]? = (xs[i]?).bind f := by
  intro xs
  induction xs with
  | nil => intro i _; simp
  | cons x rest ih =>
      intro i h
      rcases hfx : f x with _ | y
      · exact absurd (h x (List.mem_cons_self x rest)) (by simp [hfx])
      · cases i with
        | zero => simp [List.filterMap_cons, hfx]
        | succ n =>
            simp [List.filterMap_cons, hfx,
              ih n (fun z hz => h z (List.mem_cons_of_mem x hz))]

/-- C5 (amended): each row of the rendered latest-state table is built
from the identifier's last retained record, with columns `index` (the
positional row number produced by `reset_index` after the column
selection dropped `Peer ID`), `Hostname`, `Balance`, `Quil_Per_Minute`
and `Quil_Per_Hour`.  The identifier itself is not carried in the row. -/
theorem table_rows_shape (l : List MetricRow) (i : ℕ) (row : List (String × Cell))
    (hrow : (tableData l)[i]? = some row) :
    ∃ p m, (sortedDistinctPeers l)[i]? = some p ∧ lastRowOfPeer l p = some m ∧
      row = [("index", Cell.idx i), ("Hostname", Cell.str m.hostname),
        ("Balance", Cell.num m.balance),
        ("Quil_Per_Minute", Cell.flo m.quilPerMinute),
        ("Quil_Per_Hour", Cell.flo m.quilPerHour)] := by
  have hlat : (latestBalances l)[i]? = ((sortedDistinctPeers l)[i]?).bind (lastRowOfPeer l) := by
    rw [latestBalances]
    exact filterMap_getElem?_of_isSome _ _ i (lastRowOfPeer_isSome l)
  rcases hsp : (sortedDistinctPeers l)[i]? with _ | p
  · rw [tableData, List.getElem?_map, List.getElem?_enum, hlat, hsp] at hrow
    cases hrow
  · rcases hlr : lastRowOfPeer l p with _ | m
    · exfalso
      have hpm : p ∈ sortedDistinctPeers l := List.getElem?_mem hsp
      have hsome := lastRowOfPeer_isSome l p hpm
      rw [hlr] at hsome
      simp at hsome
    · refine ⟨p, m, rfl, hlr, ?_⟩
      rw [tableData, List.getElem?_map, List.getElem?_enum, hlat, hsp] at hrow
      simp only [Option.some_bind, hlr, Option.map_some', Option.some.injEq] at hrow
      rw [← hrow]
      rfl

/-- Witness for the table-row theorem: one peer `pa` with two records,
the table's single row read at position 0. -/
theorem table_rows_shape_witness :
    ∃ p m, (sortedDistinctPeers
        (computeMetricsDf [⟨0, "pa", 1, "h1"⟩, ⟨10, "pa", 2, "h1"⟩]))[0]? = some p ∧
      lastRowOfPeer (computeMetricsDf [⟨0, "pa", 1, "h1"⟩, ⟨10, "pa", 2, "h1"⟩]) p = some m ∧
      [(("index" : String), Cell.idx 0), ("Hostname", Cell.str "h1"),
        ("Balance", Cell.num 2), ("Quil_Per_Minute", Cell.flo (.val (1/10))),
        ("Quil_Per_Hour", Cell.flo (.val 6))]
        = [("index", Cell.idx 0), ("Hostname", Cell.str m.hostname),
          ("Balance", Cell.num m.balance),
          ("Quil_Per_Minute", Cell.flo m.quilPerMinute),
          ("Quil_Per_Hour", Cell.flo m.quilPerHour)] :=
  table_rows_shape (computeMetricsDf [⟨0, "pa", 1, "h1"⟩, ⟨10, "pa", 2, "h1"⟩]) 0 _
    (by with_unfolding_all decide)

/-- C5 counterexample: for peer `pa` (hostname `h1`), the rendered row's
first column is the positional index 0, and no cell of the table carries
the identifier string `pa`: the claim that the identifier is joined to
the row as an explicit index/column fails. -/
theorem table_row_lacks_identifier :
    tableData (computeMetricsDf [⟨0, "pa", 1, "h1"⟩, ⟨10, "pa", 2, "h1"⟩])
      = [[("index", Cell.idx 0), ("Hostname", Cell.str "h1"),
          ("Balance", Cell.num 2), ("Quil_Per_Minute", Cell.flo (.val (1/10))),
          ("Quil_Per_Hour", Cell.flo (.val 6))]] ∧
    (tableData (computeMetricsDf [⟨0, "pa", 1, "h1"⟩, ⟨10, "pa", 2, "h1"⟩])).all
      (fun row => row.all (fun kv => !(kv.2 == Cell.str "pa"))) = true := by
  with_unfolding_all decide

/-- C3 (amended): if the storage directory exists but contains no file
named `*.csv`, the report endpoint renders the empty dashboard — empty
table and empty chart placeholders — and no error.  (A missing or
unreadable directory, by contrast, raises out of the handler; see the
counterexample.) -/
theorem no_csv_files_empty_dashboard (entries : List (String × CsvFile))
    (hnone : entries.filter (fun e => endsWith e.1 ".csv") = []) :
    index (some entries) = .ok ⟨[], [], []⟩ := by
  simp [index, csvFilesOf, hnone, readAll]

/-- Witness for the empty-state theorem: a directory holding only a
non-CSV file (whose content would not even parse). -/
theorem no_csv_files_empty_dashboard_witness :
    index (some [("notes.txt", CsvFile.malformed)]) = .ok ⟨[], [], []⟩ :=
  no_csv_files_empty_dashboard [("notes.txt", CsvFile.malformed)]
    (by with_unfolding_all decide)

/-- C3 counterexample: with the storage directory missing, `os.listdir`
raises `FileNotFoundError` and the endpoint produces an error instead of
an empty dashboard — `index` has no handler for it. -/
theorem missing_dir_errors : index none = .error "FileNotFoundError" := rfl

/-- C4 (amended): the ingestion endpoint's `try`/`except Exception`
guarantees one of its three plain responses for every request and never
propagates an exception; the report endpoint has no such guard (see the
counterexample for the exception it lets escape). -/
theorem update_balance_never_raises (raw : RawBody) (fs : Fs) :
    (update_balance raw fs).1 = ⟨"Balance updated", 200, []⟩ ∨
    (update_balance raw fs).1 = ⟨"Invalid data", 400, []⟩ ∨
    (update_balance raw fs).1 = ⟨"Internal Server Error", 500, []⟩ := by
  rcases raw with _ | d
  · right; right; rfl
  · rcases d with _ | d
    · right; left; rfl
    · obtain ⟨po, bo, tso, ho⟩ := d
      rcases po with _ | pid <;> rcases bo with _ | bal <;> rcases tso with _ | ts <;>
        rcases ho with _ | hn <;> simp [update_balance, updateBalanceInner]

/-- C4 counterexample: a directory with a single malformed log file (one
on which `pd.read_csv` raises, e.g. an empty file) makes the report
handler propagate the exception out of the endpoint instead of catching
it. -/
theorem index_propagates_read_error :
    index (some [("bad.csv", CsvFile.malformed)]) = .error "read_csv raised" := by
  with_unfolding_all decide

/-- C8 (confirmed): an ingestion body missing any of the four fields
`peer_id`, `balance`, `timestamp`, `hostname` gets the 400 response with
body `Invalid data`, and the filesystem is returned unchanged: no log
file is created and no row is appended. -/
theorem missing_field_rejected (d : UpdateRequest) (fs : Fs)
    (hmiss : d.peer_id = none ∨ d.balance = none ∨ d.timestamp = none ∨
      d.hostname = none) :
    update_balance (.json (some d)) fs = (⟨"Invalid data", 400, []⟩, fs) := by
  obtain ⟨po, bo, tso, ho⟩ := d
  rcases po with _ | pid <;> rcases bo with _ | bal <;> rcases tso with _ | ts <;>
    rcases ho with _ | hn <;> simp [update_balance, updateBalanceInner] <;> simp at hmiss

/-- Witness for the missing-field theorem: a body with `peer_id` absent
and the other three fields present, against an empty filesystem. -/
theorem missing_field_rejected_witness :
    update_balance (.json (some ⟨none, some "5", some "t", some "hn"⟩)) []
      = (⟨"Invalid data", 400, []⟩, []) :=
  missing_field_rejected ⟨none, some "5", some "t", some "hn"⟩ [] (Or.inl rfl)

/-- Every handler-produced (or framework error) response starts with no
headers; the cache headers are added only by the after-request hook. -/
theorem dispatch_headers (req : AppRequest) (fs : Fs) : (dispatch req fs).headers = [] := by
  rcases req with raw | dir
  · rcases raw with _ | d
    · rfl
    · rcases d with _ | d
      · rfl
      · obtain ⟨po, bo, tso, ho⟩ := d
        rcases po with _ | pid <;> rcases bo with _ | bal <;> rcases tso with _ | ts <;>
          rcases ho with _ | hn <;> simp [dispatch, update_balance, updateBalanceInner]
  · rcases hidx : index dir with e | d <;> simp [dispatch, hidx]

/-- C10 (confirmed): every response the application produces — from the
report endpoint, the ingestion endpoint, and error responses alike —
carries the three cache-disabling headers, because `add_header` is
registered with `@app.after_request`, which applies application-wide and
not per route. -/
theorem all_responses_cache_disabled (req : AppRequest) (fs : Fs) :
    headerValue (appResponse req fs) "Cache-Control"
      = some "no-store, no-cache, must-revalidate, post-check=0, pre-check=0, max-age=0" ∧
    headerValue (appResponse req fs) "Pragma" = some "no-cache" ∧
    headerValue (appResponse req fs) "Expires" = some "0" := by
  have h : (dispatch req fs).headers = [] := dispatch_headers req fs
  have h2 : (appResponse req fs).headers
      = [("Cache-Control",
            "no-store, no-cache, must-revalidate, post-check=0, pre-check=0, max-age=0"),
          ("Pragma", "no-cache"), ("Expires", "0")] := by
    simp only [appResponse, add_header, h]
    with_unfolding_all rfl
  refine ⟨?_, ?_, ?_⟩ <;> simp only [headerValue, h2] <;> with_unfolding_all rfl

end QuilTracker
